/-
Verification of the logical core of `asr_rank.py`, a CLI tool that fetches
AS-rank records per organization, selects the best-ranked record, sorts the
results and prints them as a fixed-width table.

The Python source is shallowly embedded: the network/JSON stage is modelled
as an explicit `FetchOutcome` input (what `session.get` + `response.json()` +
the key lookups deliver), Python exceptions are modelled by an inductive
error type recording the Python exception class, and Python's stable
`sorted(key=..., reverse=...)` is modelled by a stable insertion sort over
the selected key.
-/
import Mathlib

namespace AsrRank

/-- Python exception values as they can arise in this program.
`valueError` covers `ValueError` and its subclass
`requests.exceptions.JSONDecodeError` (which subclasses `json.JSONDecodeError`,
itself a `ValueError`); `keyError` is `KeyError`, a subclass of `LookupError`;
`requestError` is `requests.exceptions.RequestException` (transport failure),
which is neither a `ValueError` nor a `LookupError`. -/
inductive PyError where
  | valueError (msg : String)
  | keyError (key : String)
  | requestError (msg : String)
deriving DecidableEq, Repr

/-- Whether the exception is of `LookupError` class (here: only `KeyError`). -/
def PyError.isLookupError : PyError → Bool
  | .keyError _ => true
  | _ => false

/-- Whether the exception is of `ValueError` class; this is exactly the
class caught by the `except ValueError` clause in `main`. -/
def PyError.isValueError : PyError → Bool
  | .valueError _ => true
  | _ => false

/-- One raw AS record as extracted from an element of `data.asns.edges`:
`node['node']['rank']` and `node['node']['cone']['numberAsns']`. -/
structure RawAsRecord where
  rank : Nat
  coneNumberAsns : Nat
deriving DecidableEq, Repr

/-- The possible outcomes of the external fetch/parse stage inside
`get_highest_rank_asn` — `session.get(...)`, `response.json()` and the
nested key lookups — as seen by the rest of the function:
* `netFail`: `session.get` raises a `requests.RequestException`;
* `badJson`: `response.json()` raises `JSONDecodeError` (a `ValueError`);
* `missingKey k`: some expected key `k` (`data`, `asns`, `edges`, `node`,
  `rank`, `cone`, `numberAsns`) is absent, raising `KeyError(k)`;
* `ok edges`: the parsed list of records at `data.asns.edges`. -/
inductive FetchOutcome where
  | netFail (msg : String)
  | badJson (msg : String)
  | missingKey (key : String)
  | ok (edges : List RawAsRecord)
deriving DecidableEq, Repr

/-- Python's `min` over a sequence: `None`/error on empty (modelled by the
caller), otherwise the left fold of binary `min` over the sequence. -/
def pyMin : List Nat → Option Nat
  | [] => none
  | x :: xs => some (xs.foldl Nat.min x)

/-- The scan
`conesize = None; for node in edges: if node.rank == highest: conesize = node.cone.numberAsns`
from `get_highest_rank_asn`, as a left fold starting from the `None`
placeholder. -/
def scanCone (edges : List RawAsRecord) (highest : Nat) : Option Nat :=
  edges.foldl
    (fun acc node => if node.rank = highest then some node.coneNumberAsns else acc)
    none

/-- The function `get_highest_rank_asn` from `asr_rank.py`, with the external fetch/parse
stage supplied as a `FetchOutcome`.  On a successful fetch it computes
`highest_rank = min(node['node']['rank'] for node in edges)` — `min` of an
empty sequence raises `ValueError` — then scans the edges, overwriting
`conesize` at every record whose rank equals `highest_rank`, and returns the
pair `(highest_rank, conesize)`. -/
def get_highest_rank_asn (fetch : FetchOutcome) : Except PyError (Nat × Option Nat) :=
  match fetch with
  | .netFail msg => .error (.requestError msg)
  | .badJson msg => .error (.valueError msg)
  | .missingKey k => .error (.keyError k)
  | .ok edges =>
    match pyMin (edges.map (·.rank)) with
    | none => .error (.valueError "min() arg is an empty sequence")
    | some highest_rank => .ok (highest_rank, scanCone edges highest_rank)

/-- The diagnostic line printed by `main`'s `except ValueError` branch. -/
def diagnostic (organization : String) : String :=
  "the following " ++ organization ++ " does not have information!"

/-- The aggregation loop of `main`: for each organization (paired here with
the outcome its fetch would deliver), call `get_highest_rank_asn`; on success
append `(organization, asrank, conesize)` to the results; a raised
`ValueError` is caught and turned into a diagnostic line; any other
exception propagates and aborts the run (modelled by `.error`).
Returns the result list and the list of diagnostic lines. -/
def runLoop : List (String × FetchOutcome) →
    Except PyError (List (String × Nat × Option Nat) × List String)
  | [] => .ok ([], [])
  | (org, fetch) :: rest =>
    match get_highest_rank_asn fetch with
    | .ok (asrank, conesize) =>
      (runLoop rest).map (fun p => ((org, asrank, conesize) :: p.1, p.2))
    | .error e =>
      if e.isValueError then
        (runLoop rest).map (fun p => (p.1, diagnostic org :: p.2))
      else
        .error e

/-- Whether a fetch outcome makes `get_highest_rank_asn` raise a
`ValueError`-class exception (the only class `main` catches). -/
def raisesValueError (f : FetchOutcome) : Bool :=
  match get_highest_rank_asn f with
  | .error e => e.isValueError
  | .ok _ => false

/-- An Organization Result as collected by the aggregator and consumed by
the sorter/presenter: `(organization_name, rank, cone_size)`. -/
abbrev OrgResult := String × Nat × Nat

/-- The sort key `lambda x: x[index]` with `index = 1 if metric == 'asrank'
else 2` from `sorting_asns`. -/
def resultKey (metric : String) (x : OrgResult) : Nat :=
  if metric = "asrank" then x.2.1 else x.2.2

/-- The function `sorting_asns` from `asr_rank.py`:
`sorted(results, key=lambda x: x[index], reverse=(order == 'descending'))`.
Python's `sorted` is a stable sort by the key, and `reverse=True` sorts as
if each key comparison were reversed while still keeping ties in input
order; both cases are modelled by a stable insertion sort on the
corresponding total preorder. -/
def sorting_asns (results : List OrgResult) (metric order : String) : List OrgResult :=
  let order_flag := order = "descending"
  if order_flag then
    results.insertionSort (fun a b => resultKey metric b ≤ resultKey metric a)
  else
    results.insertionSort (fun a b => resultKey metric a ≤ resultKey metric b)

/-- Python string formatting `{s:^w}` (also `str.center`): a string at least
as long as the field width is returned unchanged; otherwise it is padded
with spaces, the extra space (for odd padding) going to the right. -/
def pyCenter (w : Nat) (s : String) : String :=
  if w ≤ s.length then s
  else
    let p := w - s.length
    String.mk (List.replicate (p / 2) ' ') ++ s ++
      String.mk (List.replicate (p - p / 2) ' ')

/-- Python string formatting `{s:ws}`: left-justify in a field of width `w`
(strings longer than `w` are returned unchanged). -/
def pyLjust (w : Nat) (s : String) : String :=
  s ++ String.mk (List.replicate (w - s.length) ' ')

/-- Python string formatting `{n:wd}` for a non-negative integer: the
decimal digits right-justified in a field of width `w` (numbers wider than
`w` are printed unchanged). -/
def pyRjustNat (w : Nat) (n : Nat) : String :=
  let s := toString n
  String.mk (List.replicate (w - s.length) ' ') ++ s

/-- The header line of `beautify`:
`f"{'Organization':^10s} {'ASRank':^10s} {'ConeSize':^10s}"`. -/
def headerLine : String :=
  pyCenter 10 "Organization" ++ " " ++ pyCenter 10 "ASRank" ++ " " ++
    pyCenter 10 "ConeSize"

/-- The rule line of `beautify`: `f"{'-' * 35}"`. -/
def ruleLine : String := String.mk (List.replicate 35 '-')

/-- One data row of `beautify`:
`f"{result[0]:10s} {result[1]:10d} {result[2]:10d}"`. -/
def rowLine (result : OrgResult) : String :=
  pyLjust 10 result.1 ++ " " ++ pyRjustNat 10 result.2.1 ++ " " ++
    pyRjustNat 10 result.2.2

/-- The function `beautify` from `asr_rank.py`, with the lines printed to stdout
collected into a list: header, dash rule, then one row per result. -/
def beautify (results : List OrgResult) : List String :=
  headerLine :: ruleLine :: results.map rowLine

/-! ### Helper lemmas about the selector -/

theorem pyMin_eq_min? : ∀ l : List Nat, pyMin l = l.min?
  | [] => rfl
  | _ :: _ => rfl

theorem pyMin_spec {l : List Nat} {m : Nat} (h : pyMin l = some m) :
    m ∈ l ∧ ∀ b ∈ l, m ≤ b := by
  rw [pyMin_eq_min?] at h
  have hor : ∀ a b : Nat, min a b = a ∨ min a b = b := fun a b => by
    rw [Nat.min_def]; split <;> simp
  have := (List.min?_eq_some_iff Nat.le_refl hor
      (fun _ _ _ => Nat.le_min)).mp h
  exact ⟨this.1, this.2⟩

theorem pyMin_ne_none {l : List Nat} (h : l ≠ []) : pyMin l ≠ none := by
  cases l with
  | nil => exact absurd rfl h
  | cons x xs => simp [pyMin]

/-- The cone-size scan returns the cone size of the last record whose rank
equals `highest`, or the initial accumulator when no record matches. -/
theorem foldl_cone_eq (highest : Nat) :
    ∀ (edges : List RawAsRecord) (acc : Option Nat),
      edges.foldl
          (fun acc node =>
            if node.rank = highest then some node.coneNumberAsns else acc)
          acc =
        ((edges.filter fun e => decide (e.rank = highest)).getLast?).elim acc
          (fun e => some e.coneNumberAsns)
  | [], acc => rfl
  | e :: es, acc => by
    by_cases he : e.rank = highest
    · rw [List.foldl_cons, if_pos he, foldl_cone_eq highest es,
        List.filter_cons_of_pos (by simpa using he)]
      cases hfe : es.filter fun x => decide (x.rank = highest) with
      | nil => rfl
      | cons y ys => rw [List.getLast?_cons_cons]; rfl
    · rw [List.foldl_cons, if_neg he, foldl_cone_eq highest es,
        List.filter_cons_of_neg (by simpa using he)]

theorem scanCone_eq (edges : List RawAsRecord) (highest : Nat) :
    scanCone edges highest =
      ((edges.filter fun e => decide (e.rank = highest)).getLast?).map
        (fun e => e.coneNumberAsns) := by
  rw [scanCone, foldl_cone_eq]
  cases (edges.filter fun e => decide (e.rank = highest)).getLast? <;> rfl

/-- Full characterisation of `get_highest_rank_asn` on a successful fetch
with at least one record: it returns the minimum rank paired with the cone
size of the last record attaining that minimum. -/
theorem selector_ok (edges : List RawAsRecord) (h : edges ≠ []) :
    ∃ r last,
      get_highest_rank_asn (.ok edges) = .ok (r, some last.coneNumberAsns) ∧
      (∃ e ∈ edges, e.rank = r) ∧ (∀ e ∈ edges, r ≤ e.rank) ∧
      (edges.filter fun e => decide (e.rank = r)).getLast? = some last := by
  have hne : edges.map RawAsRecord.rank ≠ [] := by
    simpa using h
  cases hmin : pyMin (edges.map RawAsRecord.rank) with
  | none => exact absurd hmin (pyMin_ne_none hne)
  | some r =>
    obtain ⟨hmem, hle⟩ := pyMin_spec hmin
    obtain ⟨e, he, herank⟩ := List.mem_map.mp hmem
    have hfilter : e ∈ edges.filter fun x => decide (x.rank = r) :=
      List.mem_filter.mpr ⟨he, by simpa using herank⟩
    have hfne : (edges.filter fun x => decide (x.rank = r)) ≠ [] :=
      List.ne_nil_of_mem hfilter
    cases hlast : (edges.filter fun x => decide (x.rank = r)).getLast? with
    | none => exact absurd (List.getLast?_eq_none_iff.mp hlast) hfne
    | some last =>
      refine ⟨r, last, ?_, ⟨e, he, herank⟩,
        fun x hx => hle _ (List.mem_map_of_mem _ hx), hlast⟩
      rw [get_highest_rank_asn, hmin]
      show Except.ok (r, scanCone edges r) = _
      rw [scanCone_eq, hlast]
      rfl

/-! ### Helper lemmas about the sorter -/

/-- A stable sort leaves the elements selected by any predicate compatible
with the order (here: a class of equal sort keys) in their input order. -/
theorem filter_insertionSort {α : Type} (r : α → α → Prop) [DecidableRel r]
    (P : α → Bool) (hP : ∀ a b, P a = true → P b = true → r a b)
    (l : List α) :
    (l.insertionSort r).filter P = l.filter P := by
  have hpair : (l.filter P).Pairwise r :=
    List.pairwise_of_forall_mem_list fun a ha b hb =>
      hP a b (List.of_mem_filter ha) (List.of_mem_filter hb)
  have hsub : List.Sublist (l.filter P) (l.insertionSort r) :=
    List.sublist_insertionSort hpair (List.filter_sublist l)
  have hself : (l.filter P).filter P = l.filter P :=
    List.filter_eq_self.mpr fun a ha => List.of_mem_filter ha
  have hsub2 : List.Sublist (l.filter P) ((l.insertionSort r).filter P) := by
    have := hsub.filter P
    rwa [hself] at this
  have hlen : ((l.insertionSort r).filter P).length = (l.filter P).length :=
    ((List.perm_insertionSort r l).filter P).length_eq
  exact (hsub2.eq_of_length hlen.symm).symm

theorem sorting_asns_ascending (results : List OrgResult) (metric : String) :
    sorting_asns results metric "ascending" =
      results.insertionSort
        (fun a b => resultKey metric a ≤ resultKey metric b) := by
  rfl

theorem sorting_asns_descending (results : List OrgResult) (metric : String) :
    sorting_asns results metric "descending" =
      results.insertionSort
        (fun a b => resultKey metric b ≤ resultKey metric a) := by
  rfl

/-! ### Helper lemmas about the aggregation loop -/

theorem runLoop_cons_ok (org : String) (f : FetchOutcome) (r : Nat)
    (c : Option Nat) (rest : List (String × FetchOutcome))
    (hf : get_highest_rank_asn f = .ok (r, c)) :
    runLoop ((org, f) :: rest) =
      (runLoop rest).map fun p => ((org, r, c) :: p.1, p.2) := by
  simp only [runLoop, hf]

theorem runLoop_cons_caught (org : String) (f : FetchOutcome) (e : PyError)
    (rest : List (String × FetchOutcome))
    (hf : get_highest_rank_asn f = .error e) (he : e.isValueError = true) :
    runLoop ((org, f) :: rest) =
      (runLoop rest).map fun p => (p.1, diagnostic org :: p.2) := by
  simp only [runLoop, hf, he, if_true]

theorem runLoop_cons_abort (org : String) (f : FetchOutcome) (e : PyError)
    (rest : List (String × FetchOutcome))
    (hf : get_highest_rank_asn f = .error e) (he : e.isValueError = false) :
    runLoop ((org, f) :: rest) = .error e := by
  simp [runLoop, hf, he]

theorem runLoop_all_caught (fetches : List (String × FetchOutcome))
    (h : ∀ p ∈ fetches, raisesValueError p.2 = true) :
    runLoop fetches = .ok ([], fetches.map fun p => diagnostic p.1) := by
  induction fetches with
  | nil => rfl
  | cons p rest ih =>
    obtain ⟨org, f⟩ := p
    have hp := h _ (List.mem_cons_self _ _)
    rw [raisesValueError] at hp
    cases hget : get_highest_rank_asn f with
    | ok v => rw [hget] at hp; exact absurd hp (by simp)
    | error e =>
      rw [hget] at hp
      rw [runLoop_cons_caught org f e rest hget hp,
        ih fun q hq => h q (List.mem_cons_of_mem _ hq)]
      rfl

/-! ### Claim theorems -/

/-- C1: For every non-empty list of raw AS records, the Selector
(`get_highest_rank_asn`'s reduction over `data.asns.edges`) returns a pair
`(rank, cone_size)` whose rank component equals the minimum of the rank
values present in the input list. -/
theorem selector_rank_is_min (edges : List RawAsRecord) (h : edges ≠ []) :
    ∃ r c, get_highest_rank_asn (.ok edges) = .ok (r, c) ∧
      r ∈ edges.map RawAsRecord.rank ∧
      ∀ x ∈ edges.map RawAsRecord.rank, r ≤ x := by
  obtain ⟨r, last, hok, ⟨e, he, herank⟩, hle, -⟩ := selector_ok edges h
  refine ⟨r, some last.coneNumberAsns, hok, List.mem_map.mpr ⟨e, he, herank⟩,
    fun x hx => ?_⟩
  obtain ⟨e', he', rfl⟩ := List.mem_map.mp hx
  exact hle e' he'

/-- Witness for C1 on the fixture records with ranks `[6949, 9000]`. -/
theorem selector_rank_is_min_witness :
    ∃ r c,
      get_highest_rank_asn (.ok [⟨6949, 2⟩, ⟨9000, 1⟩]) = .ok (r, c) ∧
      r ∈ ([⟨6949, 2⟩, ⟨9000, 1⟩] : List RawAsRecord).map RawAsRecord.rank ∧
      ∀ x ∈ ([⟨6949, 2⟩, ⟨9000, 1⟩] : List RawAsRecord).map RawAsRecord.rank,
        r ≤ x :=
  selector_rank_is_min [⟨6949, 2⟩, ⟨9000, 1⟩] (by decide)

/-- C4: When several records share the minimum rank, the Selector returns
the cone size (`cone.numberAsns`) of the last record with that minimum rank
in input (API response) order. -/
theorem selector_tie_break_last (edges : List RawAsRecord) (h : edges ≠ []) :
    ∃ r last,
      get_highest_rank_asn (.ok edges) = .ok (r, some last.coneNumberAsns) ∧
      (∃ e ∈ edges, e.rank = r) ∧ (∀ e ∈ edges, r ≤ e.rank) ∧
      (edges.filter fun e => decide (e.rank = r)).getLast? = some last := by
  obtain ⟨r, last, hok, hmem, hle, hlast⟩ := selector_ok edges h
  exact ⟨r, last, hok, hmem, hle, hlast⟩

/-- Witness for C4 on records with ranks `[5, 5, 9]` and cones `[2, 7, 1]`:
the result is `(5, 7)`, the cone of the second (last minimal) record. -/
theorem selector_tie_break_last_witness :
    ∃ r last,
      get_highest_rank_asn (.ok [⟨5, 2⟩, ⟨5, 7⟩, ⟨9, 1⟩]) =
        .ok (r, some (RawAsRecord.coneNumberAsns last)) ∧
      (∃ e ∈ ([⟨5, 2⟩, ⟨5, 7⟩, ⟨9, 1⟩] : List RawAsRecord), e.rank = r) ∧
      (∀ e ∈ ([⟨5, 2⟩, ⟨5, 7⟩, ⟨9, 1⟩] : List RawAsRecord), r ≤ e.rank) ∧
      (([⟨5, 2⟩, ⟨5, 7⟩, ⟨9, 1⟩] : List RawAsRecord).filter
          fun e => decide (e.rank = r)).getLast? = some last :=
  selector_tie_break_last [⟨5, 2⟩, ⟨5, 7⟩, ⟨9, 1⟩] (by decide)

/-- C10: For every non-empty, well-formed list of raw AS records, the cone
size returned by `get_highest_rank_asn` is never the initial `None`
placeholder: the scan assigns it the cone value of some input record. -/
theorem selector_cone_assigned (edges : List RawAsRecord) (h : edges ≠ []) :
    ∃ r c, get_highest_rank_asn (.ok edges) = .ok (r, some c) ∧
      ∃ e ∈ edges, e.rank = r ∧ e.coneNumberAsns = c := by
  obtain ⟨r, last, hok, -, -, hlast⟩ := selector_ok edges h
  obtain ⟨ys, hys⟩ := List.getLast?_eq_some_iff.mp hlast
  have hmemf : last ∈ edges.filter fun e => decide (e.rank = r) := by
    rw [hys]; exact List.mem_append.mpr (Or.inr (List.mem_singleton.mpr rfl))
  obtain ⟨hmem, hrank⟩ := List.mem_filter.mp hmemf
  exact ⟨r, last.coneNumberAsns, hok, last, hmem, of_decide_eq_true hrank, rfl⟩

/-- Witness for C10 on a single record. -/
theorem selector_cone_assigned_witness :
    ∃ r c, get_highest_rank_asn (.ok [⟨200, 232⟩]) = .ok (r, some c) ∧
      ∃ e ∈ ([⟨200, 232⟩] : List RawAsRecord),
        e.rank = r ∧ e.coneNumberAsns = c :=
  selector_cone_assigned [⟨200, 232⟩] (by decide)

/-- C8: The Selector applied to an empty sequence of raw AS records fails
with a `ValueError`-class error (Python's `min` on an empty sequence), and
this is exactly the error class the aggregation loop in `main` catches and
skips: a `ValueError`-raising organization contributes a diagnostic and the
loop continues, while an error of any other class aborts the run. -/
theorem selector_empty_valueerror (org : String)
    (rest : List (String × FetchOutcome)) :
    get_highest_rank_asn (.ok []) =
      .error (.valueError "min() arg is an empty sequence") ∧
    (PyError.valueError "min() arg is an empty sequence").isValueError
      = true ∧
    (∀ res diags, runLoop rest = .ok (res, diags) →
      runLoop ((org, .ok []) :: rest) = .ok (res, diagnostic org :: diags)) ∧
    (∀ (f : FetchOutcome) (e : PyError), get_highest_rank_asn f = .error e →
      e.isValueError = false → runLoop ((org, f) :: rest) = .error e) := by
  refine ⟨rfl, rfl, fun res diags hrest => ?_, fun f e hf he => ?_⟩
  · rw [runLoop_cons_caught org (.ok []) _ rest rfl rfl, hrest]
    rfl
  · exact runLoop_cons_abort org f e rest hf he

/-- Witness for C8: an empty-edges organization is skipped with a
diagnostic; a missing-key organization aborts the run. -/
theorem selector_empty_valueerror_witness :
    runLoop [("Zenlayer", .ok [])] = .ok ([], [diagnostic "Zenlayer"]) ∧
    runLoop [("Zenlayer", .missingKey "data")] =
      .error (.keyError "data") :=
  ⟨(selector_empty_valueerror "Zenlayer" []).2.2.1 [] [] rfl,
    (selector_empty_valueerror "Zenlayer" []).2.2.2 (.missingKey "data")
      (.keyError "data") rfl rfl⟩

/-- C2, counterexample: a per-organization failure can abort the whole run.
An organization whose response lacks the `data` key makes
`get_highest_rank_asn` raise `KeyError('data')`; `main` catches only
`ValueError`, so the loop does not continue and no diagnostic is printed —
the run aborts with the uncaught `KeyError`. -/
theorem aggregator_counterexample :
    runLoop [("Zenlayer", .missingKey "data")] = .error (.keyError "data") :=
  rfl

/-- C2, amended: only `ValueError`-class per-organization failures
(malformed JSON body, empty data) are caught by the loop in `main`, which
prints one diagnostic naming the organization and continues; with every
organization failing with a `ValueError`-class error the result list is
empty, one diagnostic is emitted per organization, and the run completes
normally.  A failure of any other class (missing keys raise `KeyError`,
network failures raise a `RequestException`) is not caught and aborts the
run. -/
theorem aggregator_valueerror_only :
    (∀ fetches : List (String × FetchOutcome),
      (∀ p ∈ fetches, raisesValueError p.2 = true) →
      runLoop fetches = .ok ([], fetches.map fun p => diagnostic p.1)) ∧
    (∀ (org : String) (f : FetchOutcome) (e : PyError)
        (rest : List (String × FetchOutcome)),
      get_highest_rank_asn f = .error e → e.isValueError = false →
      runLoop ((org, f) :: rest) = .error e) :=
  ⟨runLoop_all_caught, fun org f e rest hf he =>
    runLoop_cons_abort org f e rest hf he⟩

/-- Witness for C2 (amended): all five organizations failing with
`ValueError`-class errors yield an empty result list, five diagnostics and
a normal completion; a single `KeyError` failure aborts. -/
theorem aggregator_valueerror_only_witness :
    runLoop [("Zenlayer", .ok []), ("Equinix", .badJson "Expecting value"),
        ("Linode", .ok []), ("Ionos", .ok []), ("PhoenixNap", .ok [])] =
      .ok ([], [diagnostic "Zenlayer", diagnostic "Equinix",
        diagnostic "Linode", diagnostic "Ionos", diagnostic "PhoenixNap"]) ∧
    runLoop [("Ionos", .missingKey "asns")] = .error (.keyError "asns") :=
  ⟨aggregator_valueerror_only.1 _ (by decide),
    aggregator_valueerror_only.2 "Ionos" (.missingKey "asns")
      (.keyError "asns") [] rfl rfl⟩

/-- C3, counterexample: a Fetcher failure on which `get_highest_rank_asn`
does not raise a `LookupError`-class error.  A malformed JSON body raises
`JSONDecodeError`, a `ValueError` subclass — not a `LookupError`; and the
`LookupError` that a missing key does raise carries the key name, is not
caught by `main` (which catches only `ValueError`) and aborts the run. -/
theorem fetch_error_class_counterexample :
    get_highest_rank_asn (.badJson "Expecting value: line 1 column 1") =
      .error (.valueError "Expecting value: line 1 column 1") ∧
    (PyError.valueError "Expecting value: line 1 column 1").isLookupError
      = false ∧
    runLoop [("Ionos", .missingKey "edges")] = .error (.keyError "edges") :=
  ⟨rfl, rfl, rfl⟩

/-- C3, amended: when the JSON body is malformed, `get_highest_rank_asn`
fails with a `ValueError`-class error (message, not organization name),
which the aggregation loop in `main` catches; when an expected key is
absent it fails with a `LookupError`-class error — a `KeyError` carrying
the missing key name, not the organization name — which `main` does not
catch and which aborts the run; when the network call fails it fails with a
`RequestException`-class error (neither `ValueError` nor `LookupError`),
also uncaught. -/
theorem fetch_error_classes :
    (∀ msg, get_highest_rank_asn (.badJson msg) =
        .error (.valueError msg) ∧
      (PyError.valueError msg).isValueError = true ∧
      (PyError.valueError msg).isLookupError = false) ∧
    (∀ k, get_highest_rank_asn (.missingKey k) = .error (.keyError k) ∧
      (PyError.keyError k).isLookupError = true ∧
      (PyError.keyError k).isValueError = false) ∧
    (∀ msg, get_highest_rank_asn (.netFail msg) =
        .error (.requestError msg) ∧
      (PyError.requestError msg).isValueError = false ∧
      (PyError.requestError msg).isLookupError = false) ∧
    (∀ (org msg : String) (rest : List (String × FetchOutcome)) res diags,
      runLoop rest = .ok (res, diags) →
      runLoop ((org, .badJson msg) :: rest) =
        .ok (res, diagnostic org :: diags)) ∧
    (∀ (org k : String) (rest : List (String × FetchOutcome)),
      runLoop ((org, .missingKey k) :: rest) = .error (.keyError k)) ∧
    (∀ (org msg : String) (rest : List (String × FetchOutcome)),
      runLoop ((org, .netFail msg) :: rest) = .error (.requestError msg)) := by
  refine ⟨fun msg => ⟨rfl, rfl, rfl⟩, fun k => ⟨rfl, rfl, rfl⟩,
    fun msg => ⟨rfl, rfl, rfl⟩, fun org msg rest res diags hrest => ?_,
    fun org k rest => runLoop_cons_abort org _ _ rest rfl rfl,
    fun org msg rest => runLoop_cons_abort org _ _ rest rfl rfl⟩
  rw [runLoop_cons_caught org (.badJson msg) _ rest rfl rfl, hrest]
  rfl

/-- Witness for C3 (amended): a malformed-JSON organization is skipped with
a diagnostic while the loop continues. -/
theorem fetch_error_classes_witness :
    runLoop [("PhoenixNap", .badJson "Expecting value")] =
      .ok ([], [diagnostic "PhoenixNap"]) :=
  fetch_error_classes.2.2.2.1 "PhoenixNap" "Expecting value" [] [] [] rfl

/-- C5: `sorting_asns` is stable for both directions: for every list of
Organization Results, key selector and order, the results with any given
value of the selected field appear in the output in the same relative order
they had in the input. -/
theorem sorter_stable (l : List OrgResult) (metric order : String) (v : Nat) :
    (sorting_asns l metric order).filter
        (fun x => decide (resultKey metric x = v)) =
      l.filter (fun x => decide (resultKey metric x = v)) := by
  by_cases h : order = "descending"
  · have hrw : sorting_asns l metric order =
        l.insertionSort
          (fun a b => resultKey metric b ≤ resultKey metric a) := by
      simp [sorting_asns, h]
    rw [hrw]
    exact filter_insertionSort _ _
      (fun a b ha hb => by rw [of_decide_eq_true ha, of_decide_eq_true hb]) l
  · have hrw : sorting_asns l metric order =
        l.insertionSort
          (fun a b => resultKey metric a ≤ resultKey metric b) := by
      simp [sorting_asns, h]
    rw [hrw]
    exact filter_insertionSort _ _
      (fun a b ha hb => by rw [of_decide_eq_true ha, of_decide_eq_true hb]) l

/-- C6: `sorting_asns` with `order=ascending` yields a non-decreasing
sequence of selected-field values, with `order=descending` a non-increasing
one; the output is a permutation of the input and the empty list sorts to
the empty list. -/
theorem sorter_orders (l : List OrgResult) (metric : String) :
    List.Sorted (· ≤ ·)
      ((sorting_asns l metric "ascending").map (resultKey metric)) ∧
    List.Sorted (fun a b => b ≤ a)
      ((sorting_asns l metric "descending").map (resultKey metric)) ∧
    (∀ order, List.Perm (sorting_asns l metric order) l) ∧
    (∀ order, sorting_asns ([] : List OrgResult) metric order = []) := by
  haveI : IsTotal OrgResult
      (fun a b => resultKey metric a ≤ resultKey metric b) :=
    ⟨fun a b => Nat.le_total _ _⟩
  haveI : IsTrans OrgResult
      (fun a b => resultKey metric a ≤ resultKey metric b) :=
    ⟨fun _ _ _ => Nat.le_trans⟩
  haveI : IsTotal OrgResult
      (fun a b => resultKey metric b ≤ resultKey metric a) :=
    ⟨fun a b => Nat.le_total _ _⟩
  haveI : IsTrans OrgResult
      (fun a b => resultKey metric b ≤ resultKey metric a) :=
    ⟨fun _ _ _ h1 h2 => Nat.le_trans h2 h1⟩
  refine ⟨?_, ?_, fun order => ?_, fun order => ?_⟩
  · rw [sorting_asns_ascending, List.Sorted, List.pairwise_map]
    exact List.sorted_insertionSort _ l
  · rw [sorting_asns_descending, List.Sorted, List.pairwise_map]
    exact List.sorted_insertionSort _ l
  · by_cases h : order = "descending"
    · rw [h, sorting_asns_descending]
      exact List.perm_insertionSort _ l
    · have hrw : sorting_asns l metric order =
          l.insertionSort
            (fun a b => resultKey metric a ≤ resultKey metric b) := by
        simp [sorting_asns, h]
      rw [hrw]
      exact List.perm_insertionSort _ l
  · by_cases h : order = "descending" <;> simp [sorting_asns, h]

/-- C7: `sorting_asns` is idempotent: applying it twice with the same key
selector and direction yields the same list as applying it once. -/
theorem sorter_idempotent (l : List OrgResult) (metric order : String) :
    sorting_asns (sorting_asns l metric order) metric order =
      sorting_asns l metric order := by
  haveI : IsTotal OrgResult
      (fun a b => resultKey metric a ≤ resultKey metric b) :=
    ⟨fun a b => Nat.le_total _ _⟩
  haveI : IsTrans OrgResult
      (fun a b => resultKey metric a ≤ resultKey metric b) :=
    ⟨fun _ _ _ => Nat.le_trans⟩
  haveI : IsTotal OrgResult
      (fun a b => resultKey metric b ≤ resultKey metric a) :=
    ⟨fun a b => Nat.le_total _ _⟩
  haveI : IsTrans OrgResult
      (fun a b => resultKey metric b ≤ resultKey metric a) :=
    ⟨fun _ _ _ h1 h2 => Nat.le_trans h2 h1⟩
  by_cases h : order = "descending"
  · have hrw : ∀ m : List OrgResult, sorting_asns m metric order =
        m.insertionSort
          (fun a b => resultKey metric b ≤ resultKey metric a) := by
      intro m; simp [sorting_asns, h]
    rw [hrw, hrw]
    exact List.Sorted.insertionSort_eq (List.sorted_insertionSort _ l)
  · have hrw : ∀ m : List OrgResult, sorting_asns m metric order =
        m.insertionSort
          (fun a b => resultKey metric a ≤ resultKey metric b) := by
      intro m; simp [sorting_asns, h]
    rw [hrw, hrw]
    exact List.Sorted.insertionSort_eq (List.sorted_insertionSort _ l)

/-- C9, counterexample: the header's three field names are not each
centered in a 10-character field.  A line of three 10-character fields
separated by single spaces would be `10 + 1 + 10 + 1 + 10 = 32` characters,
but the first field name, `Organization`, is 12 characters long and
overflows Python's minimum-width `^10` directive, making the header line 34
characters. -/
theorem beautify_header_counterexample :
    (beautify []).head? = some headerLine ∧
    (pyCenter 10 "Organization").length = 12 ∧
    headerLine.length = 34 ∧ headerLine.length ≠ 10 + 1 + 10 + 1 + 10 := by
  refine ⟨rfl, by decide, by decide, by decide⟩

/-- C9, amended: `beautify` emits a header whose three field names are
centered with *minimum* field width 10 — `ASRank` and `ConeSize` occupy 10
characters each, but `Organization` (12 characters) overflows its field,
making the header 34 characters — then a 35-character dash rule, then
exactly one row per result with the organization left-justified in (at
least) 10 characters and the two integers right-justified as decimals in
(at least) 10-character fields (32 characters per row when every field
fits); with zero results the table still prints header and rule and no
rows. -/
theorem beautify_layout (rs : List OrgResult) :
    beautify rs = "Organization   ASRank    ConeSize " ::
        "-----------------------------------" :: rs.map rowLine ∧
    headerLine.length = 34 ∧
    (pyCenter 10 "ASRank").length = 10 ∧
    (pyCenter 10 "ConeSize").length = 10 ∧
    (pyCenter 10 "Organization").length = 12 ∧
    ruleLine.length = 35 ∧
    ruleLine.toList.all (fun c => c = '-') = true ∧
    beautify [] = ["Organization   ASRank    ConeSize ",
      "-----------------------------------"] ∧
    rowLine ("Linode", 6949, 2) = "Linode           6949          2" ∧
    (∀ (o : String) (a c : Nat), o.length ≤ 10 →
      (toString a).length ≤ 10 → (toString c).length ≤ 10 →
      (rowLine (o, a, c)).length = 32) := by
  refine ⟨?_, by decide, by decide, by decide, by decide, by decide,
    by decide, by decide, by decide, ?_⟩
  · show headerLine :: ruleLine :: rs.map rowLine = _
    rw [show headerLine = "Organization   ASRank    ConeSize " by decide,
      show ruleLine = "-----------------------------------" by decide]
  · intro o a c ho ha hc
    simp only [rowLine, pyLjust, pyRjustNat, String.length_append,
      String.length_mk, List.length_replicate]
    rw [show (" " : String).length = 1 from rfl]
    omega

/-- Witness for C9 (amended): the full table for a single fixture result,
and the row width for a row whose fields all fit. -/
theorem beautify_layout_witness :
    beautify [("Linode", 6949, 2)] =
      "Organization   ASRank    ConeSize " ::
        "-----------------------------------" ::
        List.map rowLine [("Linode", 6949, 2)] ∧
    (rowLine ("Zenlayer", 122, 372)).length = 32 :=
  ⟨(beautify_layout [("Linode", 6949, 2)]).1,
    (beautify_layout []).2.2.2.2.2.2.2.2.2 "Zenlayer" 122 372 (by decide)
      (by decide) (by decide)⟩

end AsrRank
